import Mathlib

/-!
Shallow embedding of the orchestration core of the hackathon-2025 pipeline
(requirement extraction / approval / implementation pipeline over an
append-only message log).  The definitions below are translated from the
Python sources under src/: decision_bind.py, main.py, utils.py,
implement_app.py, amend_requirements.py, question_maker.py,
code_refactor.py, retriever.py.  External collaborators (the LLM
generator, the human console, the file system) are passed in as explicit
function parameters.
-/

/-! ## Data model (retriever.py, requirement_creator.py, langchain messages) -/

/-- Message origin: a langchain HumanMessage versus an AIMessage. -/
inductive Origin where
  | human
  | ai
deriving DecidableEq, Repr

/-- A single requirement, from requirement_creator.Requirement. -/
structure Requirement where
  requirement_id : String
  description : String
  category : String
deriving DecidableEq, Repr

/-- A list of requirements, from requirement_creator.RequirementsList. -/
structure RequirementsList where
  requirements : List Requirement
deriving DecidableEq, Repr

/-- The payload shapes that message contents take in this repository.
`text` is a plain non-JSON string; `reqsString` is a string of the form
header followed by `model_dump_json` of a RequirementsList, as produced by
generate_requirements and amend_requirements; `structuredList` is a list
whose single element is a dumped RequirementsList, so that Python
`content[0]` validates back to the list; `qaDict` is a dict content with
question and answer keys; `qnaDump` is the dumped QuestionsAndAnswers list
produced by question_maker; `filesDict` is the implementation summary
content naming the two written file paths. -/
inductive Content where
  | text (s : String)
  | reqsString (header : String) (r : RequirementsList)
  | structuredList (r : RequirementsList)
  | qaDict (question answer : String)
  | qnaDump (pairs : List (String × String))
  | filesDict (html js : String)
deriving DecidableEq, Repr

/-- A log entry: a langchain message with an origin, an optional `name`
tag and a content payload. -/
structure Msg where
  origin : Origin
  name : Option String
  content : Content
deriving DecidableEq, Repr

/-- The graph state from retriever.RAGState: an append-only message log
plus an append-only list of retrieved document fragments (fragments are
kept as opaque text). -/
structure RAGState where
  messages : List Msg
  documents : List String
deriving DecidableEq, Repr

/-- A stage return value: the new messages / documents to merge into the
state (the dict a langgraph node returns). -/
structure PipelineDelta where
  messages : List Msg
  documents : List String
deriving DecidableEq, Repr

/-- Merging a stage delta into the state.  RAGState annotates both fields
with the reducer fun x y => x + y, so langgraph concatenates the returned
lists onto the existing ones. -/
def mergeDelta (s : RAGState) (d : PipelineDelta) : RAGState :=
  { messages := s.messages ++ d.messages
    documents := s.documents ++ d.documents }

/-- Concatenation of two deltas, fieldwise. -/
def concatDelta (d1 d2 : PipelineDelta) : PipelineDelta :=
  { messages := d1.messages ++ d2.messages
    documents := d1.documents ++ d2.documents }

/-! ## Decision router (decision_bind.py lines 11 to 39) -/

/-- The approve pattern alternatives of YES_PAT in decision_bind.py. -/
def YES_PATTERNS : List String :=
  ["yes", "y", "approve", "approved", "ok", "okay", "agree", "accepted",
   "accept", "looks good", "ship it"]

/-- The reject pattern alternatives of NO_PAT in decision_bind.py. -/
def NO_PATTERNS : List String :=
  ["no", "n", "reject", "rejected", "disagree", "not ok", "needs changes",
   "question", "questions", "deny", "denied"]

/-- Python regex word character for the ASCII inputs this model covers. -/
def isWordChar (c : Char) : Bool :=
  c.isAlphanum || c == '_'

/-- Python str.strip whitespace characters (ASCII fragment). -/
def isPySpace (c : Char) : Bool :=
  c == ' ' || c == '\t' || c == '\n' || c == '\r' || c == '\x0b' || c == '\x0c'

/-- Python str.strip: drop leading and trailing whitespace. -/
def pyStrip (l : List Char) : List Char :=
  ((l.dropWhile isPySpace).reverse.dropWhile isPySpace).reverse

/-- The normalisation the router applies: content.strip().lower(). -/
def normalizeReply (s : String) : List Char :=
  (pyStrip s.toList).map Char.toLower

/-- Does pattern p occur in t starting at position i. -/
def matchAt (t p : List Char) (i : Nat) : Bool :=
  (t.drop i).take p.length == p

/-- Word-boundary delimited occurrence of p in t at position i.  All
patterns in both sets begin and end with a word character, for which the
regex boundary anchors mean: the previous character, if any, is not a word
character, and the character after the match, if any, is not a word
character. -/
def wbMatchAt (t p : List Char) (i : Nat) : Bool :=
  matchAt t p i
    && (i == 0 || !isWordChar (t.getD (i - 1) ' '))
    && (i + p.length == t.length || !isWordChar (t.getD (i + p.length) ' '))

/-- Existence semantics of re.search over an alternation of word-bounded
patterns: some alternative matches with word boundaries at some position. -/
def regexWordSearch (t : List Char) (pats : List String) : Bool :=
  pats.any fun p => (List.range (t.length + 1)).any fun i => wbMatchAt t p.toList i

/-- The three router outcomes. -/
inductive Decision where
  | approve
  | reject
  | unknown
deriving DecidableEq, Repr

/-- The classification core of route_on_user_decision, decision_bind.py
lines 34 to 39: normalise, search YES_PAT first, then NO_PAT, else
unknown. -/
def classify (reply : String) : Decision :=
  let t := normalizeReply reply
  if regexWordSearch t YES_PATTERNS then Decision.approve
  else if regexWordSearch t NO_PATTERNS then Decision.reject
  else Decision.unknown

/-- Python attribute access content on a message: a str for text
contents, anything else makes str methods raise. -/
def contentAsText : Content → Option String
  | Content.text s => some s
  | _ => none

/-- decision_bind.route_on_user_decision: find the latest HumanMessage
scanning the log in reverse; with none, return unknown; otherwise strip,
lowercase, and classify its text content.  Errors model the Python
exceptions raised when a human content is not a string. -/
def route_on_user_decision (messages : List Msg) : Except String String :=
  match messages.reverse.find? (fun m => m.origin == Origin.human) with
  | none => Except.ok "unknown"
  | some m =>
    match contentAsText m.content with
    | none => Except.error "AttributeError"
    | some s =>
      match classify s with
      | Decision.approve => Except.ok "approve"
      | Decision.reject => Except.ok "reject"
      | Decision.unknown => Except.ok "unknown"

/-! ## Pipeline graph nodes and the conditional edge (main.py) -/

/-- The nodes of the fixed graph wired in main.py, plus the END sentinel. -/
inductive Node where
  | retrieve
  | generate_requirements
  | question_maker
  | amend_requirements
  | present_for_approval
  | implementation
  | refactor_comment
  | code_refactor
  | user_feedback
  | user_notes
  | END
deriving DecidableEq, Repr

/-- The conditional edge mapping given to add_conditional_edges after
present_for_approval in main.py lines 46 to 50. -/
def approval_edge_map : List (String × Node) :=
  [("approve", Node.implementation),
   ("reject", Node.question_maker),
   ("unknown", Node.END)]

/-- Routing after present_for_approval: the router output looked up in
the conditional edge mapping (a missing key would be a KeyError). -/
def approval_branch (messages : List Msg) : Except String Node :=
  match route_on_user_decision messages with
  | Except.error e => Except.error e
  | Except.ok r =>
    match approval_edge_map.find? (fun p => p.fst == r) with
    | some p => Except.ok p.snd
    | none => Except.error "KeyError"

/-! ## Requirements rendering (decision_bind.format_json_as_bullets,
lines 104 to 134, the branch taken on a decoded requirements dict) -/

/-- Python str.title on the ASCII fragment: uppercase a cased character
that follows a non-cased character, lowercase the rest. -/
def pyTitleAux : List Char → Bool → List Char
  | [], _ => []
  | c :: rest, prevAlpha =>
    (if prevAlpha then c.toLower else c.toUpper) :: pyTitleAux rest c.isAlpha

/-- Python str.title. -/
def pyTitle (s : String) : String :=
  ⟨pyTitleAux s.toList false⟩

/-- Python str.rstrip: drop trailing whitespace. -/
def pyRstrip (s : String) : String :=
  ⟨(s.toList.reverse.dropWhile isPySpace).reverse⟩

/-- groups.setdefault(cat, []).append(desc): append desc under cat in an
insertion-ordered association list, creating the key at the end if new. -/
def addToGroup : List (String × List String) → String → String → List (String × List String)
  | [], cat, desc => [(cat, [desc])]
  | (c, ds) :: rest, cat, desc =>
    if c == cat then (c, ds ++ [desc]) :: rest
    else (c, ds) :: addToGroup rest cat desc

/-- The grouping loop of format_json_as_bullets: default an empty
category to Uncategorized, apply title, skip empty descriptions, append
to the per-category group. -/
def bulletGroups (reqs : List Requirement) : List (String × List String) :=
  reqs.foldl
    (fun groups item =>
      let cat := pyTitle (if item.category == "" then "Uncategorized" else item.category)
      if item.description == "" then groups
      else addToGroup groups cat item.description)
    []

/-- The preferred category order of format_json_as_bullets. -/
def preferredCats : List String :=
  ["Functional", "Non-Functional"]

/-- sort_key c: the index of c in the preferred list, 999 when absent. -/
def catIndex (c : String) : Nat :=
  match preferredCats.indexOf? c with
  | some i => i
  | none => 999

/-- The ordering induced by sorted(key = sort_key) with sort_key c =
(catIndex c, c): lexicographic on the index and then the string. -/
def catLe (a b : String) : Bool :=
  decide (catIndex a < catIndex b)
    || (catIndex a == catIndex b && decide (a ≤ b))

/-- sorted(groups.keys(), key = sort_key): a stable sort of the category
names by catLe. -/
def sortCats (cats : List String) : List String :=
  List.insertionSort (fun a b => catLe a b = true) cats

/-- Look a category up in the association list of groups. -/
def groupDescs (groups : List (String × List String)) (cat : String) : List String :=
  match groups.find? (fun g => g.fst == cat) with
  | some g => g.snd
  | none => []

/-- The per-category seen set: keep only the first occurrence of each
description. -/
def dedupKeepFirst (ds : List String) : List String :=
  ds.foldl (fun acc d => if acc.contains d then acc else acc ++ [d]) []

/-- The category names in output order for a given requirements list. -/
def orderedCategories (reqs : List Requirement) : List String :=
  sortCats ((bulletGroups reqs).map Prod.fst)

/-- The requirements-dict branch of decision_bind.format_json_as_bullets
applied to a decoded RequirementsList: one markdown section per category
in sorted order, one bullet per first occurrence of a description, a
blank line after each section, joined by newlines and right-stripped. -/
def format_requirements_bullets (rl : RequirementsList) : String :=
  let groups := bulletGroups rl.requirements
  let lines :=
    (sortCats (groups.map Prod.fst)).foldl
      (fun lines cat =>
        lines ++ ["### " ++ cat]
          ++ (dedupKeepFirst (groupDescs groups cat)).map (fun d => "- " ++ d)
          ++ [""])
      []
  pyRstrip (String.intercalate "\n" lines)

/-! ## present_for_approval (decision_bind.py lines 43 to 65) -/

/-- The console prompt built around the rendered requirements. -/
def approvalPrompt (display : String) : String :=
  "📝 **Please review the generated requirements below:**\n\n"
    ++ display
    ++ "\n\n➡️ **Reply with one word:**\n"
    ++ "  • \x27approve\x27 (or yes / ok / looks good) → continue to implementation\n"
    ++ "  • \x27reject\x27 (or no / needs changes) → describe what to modify\n"

/-- decision_bind.present_for_approval with the blocking console input
passed in as ask.  Validates the last message content[0] as a
RequirementsList (an empty log raises an IndexError, a non-conforming
payload a ValidationError), renders it, solicits one reply, and returns
the state dict with messages replaced by the single new human entry named
present_for_approval; spreading the old state keeps the documents list in
the returned dict. -/
def present_for_approval (ask : String → String) (state : RAGState) :
    Except String PipelineDelta :=
  match state.messages.getLast? with
  | none => Except.error "IndexError"
  | some m =>
    match m.content with
    | Content.structuredList r =>
      let approval := ask (approvalPrompt (format_requirements_bullets r))
      Except.ok
        { messages := [{ origin := Origin.human
                         name := some "present_for_approval"
                         content := Content.text approval }]
          documents := state.documents }
    | _ => Except.error "ValidationError"

/-! ## Artifact extraction (utils.py and implement_app.py) -/

/-- Substring containment, Python in on strings. -/
def strContains (hay needle : String) : Bool :=
  (List.range (hay.toList.length + 1)).any fun i => matchAt hay.toList needle.toList i

/-- utils.extract_requirements_from_message: None name gives None, a name
containing the substring requirements validates content[0] as a
RequirementsList (raising ValidationError when the payload does not
conform), otherwise None. -/
def utils_extract_requirements_from_message (m : Msg) :
    Except String (Option RequirementsList) :=
  match m.name with
  | none => Except.ok none
  | some n =>
    if strContains n "requirements" then
      match m.content with
      | Content.structuredList r => Except.ok (some r)
      | _ => Except.error "ValidationError"
    else Except.ok none

/-- The reversed-scan loop of utils.extract_requirements_from_state:
first message whose extraction succeeds, propagating exceptions. -/
def utilsFirstExtract : List Msg → Except String (Option RequirementsList)
  | [] => Except.ok none
  | m :: rest =>
    match utils_extract_requirements_from_message m with
    | Except.error e => Except.error e
    | Except.ok (some r) => Except.ok (some r)
    | Except.ok none => utilsFirstExtract rest

/-- utils.extract_requirements_from_state: scan the log in reverse for
the first message carrying requirements; the assert statement raises an
AssertionError when nothing was found. -/
def utils_extract_requirements_from_state (messages : List Msg) :
    Except String RequirementsList :=
  match utilsFirstExtract messages.reverse with
  | Except.error e => Except.error e
  | Except.ok (some r) => Except.ok r
  | Except.ok none => Except.error "AssertionError"

/-- implement_app.extract_requirements_from_message: only messages named
exactly requirements_amender count, and content[0] is validated as a
RequirementsList. -/
def implement_extract_from_message (m : Msg) :
    Except String (Option RequirementsList) :=
  if m.name == some "requirements_amender" then
    match m.content with
    | Content.structuredList r => Except.ok (some r)
    | _ => Except.error "ValidationError"
  else Except.ok none

/-- The reversed-scan loop in implement_app.implement_app, stopping at
the first message that extracts. -/
def implementFirstExtract : List Msg → Except String (Option RequirementsList)
  | [] => Except.ok none
  | m :: rest =>
    match implement_extract_from_message m with
    | Except.error e => Except.error e
    | Except.ok (some r) => Except.ok (some r)
    | Except.ok none => implementFirstExtract rest

/-- The fixed output directory used by implement_app and code_refactor. -/
def out_dir : String := "out"

/-- implement_app.implement_app with the structured generation call
passed in as gen, returning the html and js contents.  With no amended
requirements in the log the stage returns a single plain unnamed notice
message instead of raising; otherwise it generates, writes both files
under out, and appends one summary entry named implementation. -/
def implement_app (gen : RequirementsList → String × String) (state : RAGState) :
    Except String PipelineDelta :=
  match implementFirstExtract state.messages.reverse with
  | Except.error e => Except.error e
  | Except.ok none =>
    Except.ok
      { messages := [{ origin := Origin.ai
                       name := none
                       content := Content.text "No amended requirements found to implement." }]
        documents := [] }
  | Except.ok (some reqs) =>
    let _files := gen reqs
    Except.ok
      { messages := [{ origin := Origin.ai
                       name := some "implementation"
                       content := Content.filesDict (out_dir ++ "/" ++ "index.html")
                                    (out_dir ++ "/" ++ "main.js") }]
        documents := [] }

/-! ## amend_requirements (amend_requirements.py) -/

/-- amend_requirements.extract_requirements_from_message: only messages
named exactly requirements_agent count; the extracted-requirements
header is stripped by str.replace and the remaining JSON is parsed back
into a RequirementsList.  A requirements_agent message whose content is
not such a string raises. -/
def amend_extract_from_message (m : Msg) :
    Except String (Option RequirementsList) :=
  if m.name == some "requirements_agent" then
    match m.content with
    | Content.reqsString h r =>
      if h == "EXTRACTED REQUIREMENTS:\n\n" then Except.ok (some r)
      else Except.error "JSONDecodeError"
    | _ => Except.error "TypeError"
  else Except.ok none

/-- The reversed-scan loop in amend_requirements.amend_requirements. -/
def amendFirstExtract : List Msg → Except String (Option RequirementsList)
  | [] => Except.ok none
  | m :: rest =>
    match amend_extract_from_message m with
    | Except.error e => Except.error e
    | Except.ok (some r) => Except.ok (some r)
    | Except.ok none => amendFirstExtract rest

/-- amend_requirements.extract_qa_from_messages: forward scan collecting
the question and answer fields of every message named requirements_qa
whose content is a dict with both keys; other shapes are skipped. -/
def extract_qa_from_messages (messages : List Msg) : List (String × String) :=
  messages.foldl
    (fun acc m =>
      if m.name == some "requirements_qa" then
        match m.content with
        | Content.qaDict q a => acc ++ [(q, a)]
        | _ => acc
      else acc)
    []

/-- amend_requirements.amend_requirements with the structured generation
call passed in as gen, mapping the found requirements and the collected
feedback pairs to the revised requirements.  With no requirements in the
log the stage returns a single plain unnamed notice message; otherwise it
always proceeds, even with an empty feedback list, and appends one entry
named requirements_amender carrying the amended-requirements string. -/
def amend_requirements
    (gen : RequirementsList → List (String × String) → RequirementsList)
    (state : RAGState) : Except String PipelineDelta :=
  match amendFirstExtract state.messages.reverse with
  | Except.error e => Except.error e
  | Except.ok none =>
    Except.ok
      { messages := [{ origin := Origin.ai
                       name := none
                       content := Content.text "No requirements found to amend." }]
        documents := [] }
  | Except.ok (some reqs) =>
    let qa := extract_qa_from_messages state.messages
    let updated := gen reqs qa
    Except.ok
      { messages := [{ origin := Origin.ai
                       name := some "requirements_amender"
                       content := Content.reqsString "AMENDED REQUIREMENTS:\n\n" updated }]
        documents := [] }

/-! ## question_maker (question_maker.py lines 30 to 91) -/

/-- question_maker.question_maker with the structured generation call
passed in as gen (the clarifying question list for the requirements) and
the blocking console input as ask.  Validates the last message content[0]
as a RequirementsList, generates questions, solicits an answer for each
question in questions[:1] (the slice caps the loop at the first
question), and appends one entry named question_maker carrying the
accumulated pairs. -/
def question_maker (gen : RequirementsList → List String) (ask : String → String)
    (state : RAGState) : Except String PipelineDelta :=
  match state.messages.getLast? with
  | none => Except.error "IndexError"
  | some m =>
    match m.content with
    | Content.structuredList r =>
      let questions := gen r
      let qnas := (questions.take 1).map fun q => (q, ask q)
      Except.ok
        { messages := [{ origin := Origin.ai
                         name := some "question_maker"
                         content := Content.qnaDump qnas }]
          documents := [] }
    | _ => Except.error "ValidationError"

/-! ## code_refactor (code_refactor.py lines 22 to 80) and
save_web_files (implement_app.py lines 33 to 49) -/

/-- code_refactor.py line 52: js_path = output_dir / "main.js". -/
def code_refactor_js_read_path : String :=
  out_dir ++ "/" ++ "main.js"

/-- code_refactor.py line 53: html_path = output_dir / "main.js". -/
def code_refactor_html_read_path : String :=
  out_dir ++ "/" ++ "main.js"

/-- The two reads performed by code_refactor before generation: open and
read js_path into js_content and html_path into html_content, raising
when a file is missing.  The file system is a map from path to content. -/
def code_refactor_reads (fs : String → Option String) :
    Except String (String × String) :=
  match fs code_refactor_js_read_path with
  | none => Except.error "FileNotFoundError"
  | some js =>
    match fs code_refactor_html_read_path with
    | none => Except.error "FileNotFoundError"
    | some html => Except.ok (js, html)

/-- implement_app.save_web_files: write html_content to index.html and
js_content to main.js under the output directory. -/
def save_web_files (html_content js_content : String)
    (fs : String → Option String) : String → Option String :=
  fun p =>
    if p == out_dir ++ "/" ++ "index.html" then some html_content
    else if p == out_dir ++ "/" ++ "main.js" then some js_content
    else fs p

/-! ## Helper lemmas -/

theorem catLe_iff (a b : String) :
    catLe a b = true ↔ catIndex a < catIndex b ∨ (catIndex a = catIndex b ∧ a ≤ b) := by
  simp [catLe, Bool.or_eq_true, Bool.and_eq_true, decide_eq_true_eq, beq_iff_eq]

theorem catLe_total (a b : String) : catLe a b = true ∨ catLe b a = true := by
  rw [catLe_iff, catLe_iff]
  rcases Nat.lt_trichotomy (catIndex a) (catIndex b) with h | h | h
  · exact Or.inl (Or.inl h)
  · rcases le_total a b with hab | hba
    · exact Or.inl (Or.inr ⟨h, hab⟩)
    · exact Or.inr (Or.inr ⟨h.symm, hba⟩)
  · exact Or.inr (Or.inl h)

theorem catLe_trans (a b c : String) (h1 : catLe a b = true) (h2 : catLe b c = true) :
    catLe a c = true := by
  rw [catLe_iff] at h1 h2 ⊢
  rcases h1 with h1 | ⟨h1, h1'⟩
  · rcases h2 with h2 | ⟨h2, _⟩
    · exact Or.inl (h1.trans h2)
    · exact Or.inl (h2 ▸ h1)
  · rcases h2 with h2 | ⟨h2, h2'⟩
    · exact Or.inl (h1 ▸ h2)
    · exact Or.inr ⟨h1.trans h2, le_trans h1' h2'⟩

theorem dedupFold_nodup (ds acc : List String) (h : acc.Nodup) :
    (ds.foldl (fun acc d => if acc.contains d then acc else acc ++ [d]) acc).Nodup := by
  induction ds generalizing acc with
  | nil => simpa using h
  | cons d ds ih =>
    simp only [List.foldl_cons]
    by_cases hc : acc.contains d
    · rw [if_pos hc]
      exact ih acc h
    · rw [if_neg hc]
      apply ih
      rw [List.nodup_append]
      refine ⟨h, List.nodup_singleton d, ?_⟩
      intro x hx hxd
      rw [List.mem_singleton] at hxd
      subst hxd
      simp at hc
      exact hc hx

theorem route_append_human (msgs : List Msg) (m : Msg) (hm : m.origin = Origin.human) :
    route_on_user_decision (msgs ++ [m]) = route_on_user_decision [m] := by
  have hp : (fun m : Msg => m.origin == Origin.human) m = true := by
    show (m.origin == Origin.human) = true
    rw [hm]
    rfl
  have h1 : List.find? (fun m : Msg => m.origin == Origin.human) (msgs ++ [m]).reverse
      = some m := by
    rw [List.reverse_append]
    simp only [List.reverse_cons, List.reverse_nil, List.nil_append, List.singleton_append]
    rw [List.find?_cons_of_pos]
    exact hp
  have h2 : List.find? (fun m : Msg => m.origin == Origin.human) ([m] : List Msg).reverse
      = some m := by
    simp only [List.reverse_singleton]
    rw [List.find?_cons_of_pos]
    exact hp
  unfold route_on_user_decision
  rw [h1, h2]

theorem approval_branch_reject (msgs : List Msg)
    (h : route_on_user_decision msgs = Except.ok "reject") :
    approval_branch msgs = Except.ok Node.question_maker := by
  unfold approval_branch
  rw [h]
  rfl

theorem implementFirstExtract_skip (l rest : List Msg)
    (h : ∀ m ∈ l, m.name ≠ some "requirements_amender") :
    implementFirstExtract (l ++ rest) = implementFirstExtract rest := by
  induction l with
  | nil => rfl
  | cons m l ih =>
    simp only [List.cons_append, implementFirstExtract]
    have hm : implement_extract_from_message m = Except.ok none := by
      unfold implement_extract_from_message
      have : (m.name == some "requirements_amender") = false := by
        simpa using h m (List.mem_cons_self m l)
      rw [this]
      rfl
    rw [hm]
    exact ih fun m' hm' => h m' (List.mem_cons_of_mem _ hm')

theorem amendFirstExtract_skip (l rest : List Msg)
    (h : ∀ m ∈ l, m.name ≠ some "requirements_agent") :
    amendFirstExtract (l ++ rest) = amendFirstExtract rest := by
  induction l with
  | nil => rfl
  | cons m l ih =>
    simp only [List.cons_append, amendFirstExtract]
    have hm : amend_extract_from_message m = Except.ok none := by
      unfold amend_extract_from_message
      have : (m.name == some "requirements_agent") = false := by
        simpa using h m (List.mem_cons_self m l)
      rw [this]
      rfl
    rw [hm]
    exact ih fun m' hm' => h m' (List.mem_cons_of_mem _ hm')

theorem qaFold_const (messages : List Msg) (acc : List (String × String))
    (h : ∀ m ∈ messages, m.name ≠ some "requirements_qa") :
    messages.foldl
      (fun acc m =>
        if m.name == some "requirements_qa" then
          match m.content with
          | Content.qaDict q a => acc ++ [(q, a)]
          | _ => acc
        else acc)
      acc = acc := by
  induction messages generalizing acc with
  | nil => rfl
  | cons m l ih =>
    simp only [List.foldl_cons]
    have : (m.name == some "requirements_qa") = false := by
      simpa using h m (List.mem_cons_self m l)
    rw [this]
    exact ih acc fun m' hm' => h m' (List.mem_cons_of_mem _ hm')

theorem extract_qa_eq_nil (messages : List Msg)
    (h : ∀ m ∈ messages, m.name ≠ some "requirements_qa") :
    extract_qa_from_messages messages = [] := by
  unfold extract_qa_from_messages
  exact qaFold_const messages [] h

/-! ## Claim theorems -/

/-- C1: the decision classifier normalises the reply (strip then
lowercase), tests the approve pattern set with word-boundary matching
first and returns approve on a match regardless of the reject set, then
tests the reject set, else returns unknown; and on the four example
replies it returns approve, reject, unknown and unknown respectively
(the NOSTALGIA case showing word-boundary rather than substring
matching of the pattern no). -/
theorem c1_classify_policy :
    (∀ s : String, regexWordSearch (normalizeReply s) YES_PATTERNS = true →
        classify s = Decision.approve)
  ∧ (∀ s : String, regexWordSearch (normalizeReply s) YES_PATTERNS = false →
        regexWordSearch (normalizeReply s) NO_PATTERNS = true →
        classify s = Decision.reject)
  ∧ (∀ s : String, regexWordSearch (normalizeReply s) YES_PATTERNS = false →
        regexWordSearch (normalizeReply s) NO_PATTERNS = false →
        classify s = Decision.unknown)
  ∧ classify "Yes, looks good" = Decision.approve
  ∧ classify "no, needs changes" = Decision.reject
  ∧ classify "banana" = Decision.unknown
  ∧ classify "NOSTALGIA" = Decision.unknown := by
  refine ⟨?_, ?_, ?_, by decide, by decide, by decide, by decide⟩
  · intro s h
    simp [classify, h]
  · intro s h1 h2
    simp [classify, h1, h2]
  · intro s h1 h2
    simp [classify, h1, h2]

/-- Witness for C1: the approve branch applied at a concrete reply that
matches the approve pattern set. -/
theorem c1_classify_policy_witness :
    regexWordSearch (normalizeReply "ship it now") YES_PATTERNS = true
  ∧ classify "ship it now" = Decision.approve :=
  ⟨by decide, c1_classify_policy.1 "ship it now" (by decide)⟩

/-- C2: the conditional branch after present_for_approval maps the
router outcome approve to the implementation node, reject back to the
question_maker node and unknown to END, and in the scenario where the
human reply solicited by present_for_approval is the text reject
followed by needs more detail, the merged state routes to
question_maker. -/
theorem c2_approval_routing :
    (∀ messages : List Msg, route_on_user_decision messages = Except.ok "approve" →
        approval_branch messages = Except.ok Node.implementation)
  ∧ (∀ messages : List Msg, route_on_user_decision messages = Except.ok "reject" →
        approval_branch messages = Except.ok Node.question_maker)
  ∧ (∀ messages : List Msg, route_on_user_decision messages = Except.ok "unknown" →
        approval_branch messages = Except.ok Node.END)
  ∧ (∀ (state : RAGState) (m : Msg) (r : RequirementsList) (d : PipelineDelta),
        state.messages.getLast? = some m →
        m.content = Content.structuredList r →
        present_for_approval (fun _ => "reject — needs more detail") state = Except.ok d →
        approval_branch (mergeDelta state d).messages = Except.ok Node.question_maker) := by
  refine ⟨?_, ?_, ?_, ?_⟩
  · intro messages h
    unfold approval_branch
    rw [h]
    rfl
  · intro messages h
    unfold approval_branch
    rw [h]
    rfl
  · intro messages h
    unfold approval_branch
    rw [h]
    rfl
  · intro state m r d hlast hcontent hp
    simp only [present_for_approval, hlast, hcontent] at hp
    have hd : d = { messages := [{ origin := Origin.human
                                   name := some "present_for_approval"
                                   content := Content.text "reject — needs more detail" }]
                    documents := state.documents } := by
      cases hp
      rfl
    have hmm : (mergeDelta state d).messages =
        state.messages ++ [{ origin := Origin.human
                             name := some "present_for_approval"
                             content := Content.text "reject — needs more detail" }] := by
      rw [hd]
      rfl
    rw [hmm]
    apply approval_branch_reject
    rw [route_append_human _ _ rfl]
    rfl

/-- Witness for C2: the scenario branch applied at a concrete one-entry
state carrying a structured requirements payload. -/
theorem c2_approval_routing_witness :
    approval_branch
      (mergeDelta
        { messages := [{ origin := Origin.ai
                         name := some "requirements_amender"
                         content := Content.structuredList { requirements := [] } }]
          documents := [] }
        { messages := [{ origin := Origin.human
                         name := some "present_for_approval"
                         content := Content.text "reject — needs more detail" }]
          documents := [] }).messages = Except.ok Node.question_maker :=
  c2_approval_routing.2.2.2
    { messages := [{ origin := Origin.ai
                     name := some "requirements_amender"
                     content := Content.structuredList { requirements := [] } }]
      documents := [] }
    { origin := Origin.ai
      name := some "requirements_amender"
      content := Content.structuredList { requirements := [] } }
    { requirements := [] }
    { messages := [{ origin := Origin.human
                     name := some "present_for_approval"
                     content := Content.text "reject — needs more detail" }]
      documents := [] }
    rfl rfl rfl

/-- C8: delta merging is associative and order-preserving: merging delta
D1 into the state and then D2 equals one merge of the concatenation of
D1 and D2. -/
theorem c8_merge_assoc (s : RAGState) (d1 d2 : PipelineDelta) :
    mergeDelta (mergeDelta s d1) d2 = mergeDelta s (concatDelta d1 d2) := by
  simp [mergeDelta, concatDelta]

/-- C9: the log is append-only: merging any stage delta into the state
leaves the previous message log a prefix of the new one, and likewise
for the document list; no prior entry is mutated, replaced or
truncated. -/
theorem c9_append_only (s : RAGState) (d : PipelineDelta) :
    s.messages <+: (mergeDelta s d).messages ∧ s.documents <+: (mergeDelta s d).documents :=
  ⟨⟨d.messages, rfl⟩, ⟨d.documents, rfl⟩⟩

/-- C10: on a log with no human-originated entry at all the decision
router returns unknown rather than raising. -/
theorem c10_no_human_is_unknown (messages : List Msg)
    (h : ∀ m ∈ messages, m.origin ≠ Origin.human) :
    route_on_user_decision messages = Except.ok "unknown" := by
  have hf : messages.reverse.find? (fun m => m.origin == Origin.human) = none := by
    rw [List.find?_eq_none]
    intro m hm
    have h2 := h m (List.mem_reverse.mp hm)
    simpa using h2
  unfold route_on_user_decision
  rw [hf]

/-- Witness for C10: a concrete log holding only generated entries. -/
theorem c10_no_human_is_unknown_witness :
    (∀ m ∈ [({ origin := Origin.ai, name := none, content := Content.text "hello" } : Msg)],
        m.origin ≠ Origin.human)
  ∧ route_on_user_decision
      [{ origin := Origin.ai, name := none, content := Content.text "hello" }] =
      Except.ok "unknown" :=
  ⟨by decide, c10_no_human_is_unknown _ (by decide)⟩

theorem catIndex_of_not_mem (c : String) (hc : c ∉ preferredCats) : catIndex c = 999 := by
  have hidx : preferredCats.indexOf? c = none := by
    rw [List.indexOf?_eq_none_iff]
    intro x hx h
    rw [beq_iff_eq] at h
    subst h
    exact hc hx
  simp [catIndex, hidx]

/-- C3 (amended): the stage-level artifact extraction of implement_app
scans the log backward and returns the payload of the matching entry
closest to the end, and on a log with no matching entry (the empty log
included) the stage substitutes a plain unnamed notice entry rather than
raising.  The helper utils.extract_requirements_from_state does not share
the second half of this contract, see the counterexample. -/
theorem c3_find_latest :
    (∀ (l₁ l₂ : List Msg) (m : Msg) (r : RequirementsList),
        m.name = some "requirements_amender" →
        m.content = Content.structuredList r →
        (∀ m' ∈ l₂, m'.name ≠ some "requirements_amender") →
        implementFirstExtract ((l₁ ++ m :: l₂).reverse) = Except.ok (some r))
  ∧ (∀ (gen : RequirementsList → String × String) (state : RAGState),
        (∀ m ∈ state.messages, m.name ≠ some "requirements_amender") →
        implement_app gen state =
          Except.ok { messages := [{ origin := Origin.ai
                                     name := none
                                     content := Content.text
                                       "No amended requirements found to implement." }]
                      documents := [] }) := by
  constructor
  · intro l₁ l₂ m r hm hc h2
    have hskip : ∀ m' ∈ l₂.reverse, m'.name ≠ some "requirements_amender" := fun m' hm' =>
      h2 m' (List.mem_reverse.mp hm')
    have hrev : (l₁ ++ m :: l₂).reverse = l₂.reverse ++ m :: l₁.reverse := by
      simp [List.reverse_append]
    rw [hrev, implementFirstExtract_skip _ _ hskip]
    have hex : implement_extract_from_message m = Except.ok (some r) := by
      simp [implement_extract_from_message, hm, hc]
    simp only [implementFirstExtract]
    rw [hex]
  · intro gen state h
    have hfe : implementFirstExtract state.messages.reverse = Except.ok none := by
      have h2 := implementFirstExtract_skip state.messages.reverse []
        (fun m' hm' => h m' (List.mem_reverse.mp hm'))
      simpa using h2
    unfold implement_app
    rw [hfe]

/-- Counterexample for C3: the artifact extraction
utils.extract_requirements_from_state raises an AssertionError on the
empty log instead of returning a NotFound result handled as a plain
notice entry. -/
theorem c3_counterexample_assert :
    utils_extract_requirements_from_state [] = Except.error "AssertionError" := rfl

/-- Witness for C3: the backward scan applied to a concrete one-entry
log carrying an amended requirements payload. -/
theorem c3_find_latest_witness :
    implementFirstExtract
        (([] ++ ({ origin := Origin.ai
                   name := some "requirements_amender"
                   content := Content.structuredList { requirements := [] } } : Msg) :: []).reverse)
      = Except.ok (some { requirements := [] }) :=
  c3_find_latest.1 [] [] _ { requirements := [] } rfl rfl (by decide)

/-- C4: code_refactor reads the path out/main.js for both file reads: the
html read path equals the js read path and is not out/index.html, so for
any file system holding both files the stage reads the js content twice
and the persisted index.html content is never read.  The writes of
save_web_files do go to out/index.html and out/main.js. -/
theorem c4_refactor_reads :
    code_refactor_html_read_path = code_refactor_js_read_path
  ∧ code_refactor_html_read_path ≠ out_dir ++ "/" ++ "index.html"
  ∧ (∀ (fs : String → Option String) (js html : String),
      fs (out_dir ++ "/" ++ "main.js") = some js →
      fs (out_dir ++ "/" ++ "index.html") = some html →
      code_refactor_reads fs = Except.ok (js, js)) := by
  refine ⟨rfl, by decide, ?_⟩
  intro fs js html hjs hhtml
  unfold code_refactor_reads code_refactor_js_read_path code_refactor_html_read_path
  rw [hjs]

/-- Witness for C4: concrete distinct file contents, and the stage read
pair holds the js content twice. -/
theorem c4_refactor_reads_witness :
    code_refactor_reads (fun p =>
        if p == "out/main.js" then some "jscode"
        else if p == "out/index.html" then some "htmlcode" else none)
      = Except.ok ("jscode", "jscode") :=
  c4_refactor_reads.2.2 _ "jscode" "htmlcode" (by decide) (by decide)

/-- C5 (amended): when the latest RequirementsList artifact is missing
from the log, amend_requirements returns a delta holding one plain
unnamed notice entry and raises no exception; when the requirements are
present but every Q and A artifact is missing, the stage does not return
a notice: it proceeds with an empty feedback list and appends the
generated amended-requirements entry. -/
theorem c5_missing_artifacts :
    (∀ (gen : RequirementsList → List (String × String) → RequirementsList) (state : RAGState),
        (∀ m ∈ state.messages, m.name ≠ some "requirements_agent") →
        amend_requirements gen state =
          Except.ok { messages := [{ origin := Origin.ai
                                     name := none
                                     content := Content.text "No requirements found to amend." }]
                      documents := [] })
  ∧ (∀ (gen : RequirementsList → List (String × String) → RequirementsList)
        (l₁ l₂ : List Msg) (m : Msg) (r : RequirementsList) (docs : List String),
        m.name = some "requirements_agent" →
        m.content = Content.reqsString "EXTRACTED REQUIREMENTS:\n\n" r →
        (∀ m' ∈ l₂, m'.name ≠ some "requirements_agent") →
        (∀ m' ∈ l₁ ++ m :: l₂, m'.name ≠ some "requirements_qa") →
        amend_requirements gen { messages := l₁ ++ m :: l₂, documents := docs } =
          Except.ok { messages := [{ origin := Origin.ai
                                     name := some "requirements_amender"
                                     content := Content.reqsString "AMENDED REQUIREMENTS:\n\n"
                                       (gen r []) }]
                      documents := [] }) := by
  constructor
  · intro gen state h
    have hfe : amendFirstExtract state.messages.reverse = Except.ok none := by
      have h2 := amendFirstExtract_skip state.messages.reverse []
        (fun m' hm' => h m' (List.mem_reverse.mp hm'))
      simpa using h2
    unfold amend_requirements
    rw [hfe]
  · intro gen l₁ l₂ m r docs hm hc h2 hqa
    have hskip : ∀ m' ∈ l₂.reverse, m'.name ≠ some "requirements_agent" := fun m' hm' =>
      h2 m' (List.mem_reverse.mp hm')
    have hrev : (l₁ ++ m :: l₂).reverse = l₂.reverse ++ m :: l₁.reverse := by
      simp [List.reverse_append]
    have hex : amend_extract_from_message m = Except.ok (some r) := by
      simp [amend_extract_from_message, hm, hc]
    have hfe : amendFirstExtract (l₁ ++ m :: l₂).reverse = Except.ok (some r) := by
      rw [hrev, amendFirstExtract_skip _ _ hskip]
      simp only [amendFirstExtract]
      rw [hex]
    have hqa0 : extract_qa_from_messages (l₁ ++ m :: l₂) = [] := extract_qa_eq_nil _ hqa
    simp only [amend_requirements, hfe, hqa0]

/-- Counterexample for C5: a state whose log carries a requirements
artifact but no Q and A artifact at all; the stage output is a single
generated entry tagged requirements_amender, so the returned delta holds
no plain notice entry, against the claim that a missing Q and A artifact
produces one. -/
theorem c5_counterexample_no_notice :
    amend_requirements (fun r _ => r)
        { messages := [{ origin := Origin.ai
                         name := some "requirements_agent"
                         content := Content.reqsString "EXTRACTED REQUIREMENTS:\n\n"
                           { requirements := [] } }]
          documents := [] }
      = Except.ok { messages := [{ origin := Origin.ai
                                   name := some "requirements_amender"
                                   content := Content.reqsString "AMENDED REQUIREMENTS:\n\n"
                                     { requirements := [] } }]
                    documents := [] }
  ∧ (∀ m ∈ [({ origin := Origin.ai
               name := some "requirements_amender"
               content := Content.reqsString "AMENDED REQUIREMENTS:\n\n"
                 { requirements := [] } } : Msg)],
        m.name ≠ none) :=
  ⟨rfl, by decide⟩

/-- Witness for C5: the missing-requirements branch applied at the empty
state. -/
theorem c5_missing_artifacts_witness :
    (∀ m ∈ ([] : List Msg), m.name ≠ some "requirements_agent")
  ∧ amend_requirements (fun r _ => r) { messages := [], documents := [] } =
      Except.ok { messages := [{ origin := Origin.ai
                                 name := none
                                 content := Content.text "No requirements found to amend." }]
                  documents := [] } :=
  ⟨by decide, c5_missing_artifacts.1 (fun r _ => r) { messages := [], documents := [] } (by decide)⟩

/-- C6: the present_for_approval rendering groups descriptions by
category, orders categories Functional first, then Non-Functional, then
every other category in lexicographic order (catLe is exactly the order
by preferred index then string), suppresses duplicate descriptions
within a category, and on the concrete three-requirement example the
output lists Functional before Non-Functional with the duplicate
description appearing once. -/
theorem c6_format_grouping :
    format_requirements_bullets
        { requirements :=
            [{ requirement_id := "R1", description := "A", category := "Functional" },
             { requirement_id := "R2", description := "B", category := "Non-Functional" },
             { requirement_id := "R3", description := "A", category := "Functional" }] }
      = "### Functional\n- A\n\n### Non-Functional\n- B"
  ∧ (∀ reqs : List Requirement,
        List.Sorted (fun a b => catLe a b = true) (orderedCategories reqs))
  ∧ (∀ ds : List String, (dedupKeepFirst ds).Nodup)
  ∧ catLe "Functional" "Non-Functional" = true
  ∧ (∀ c : String, c ∉ preferredCats → catLe "Non-Functional" c = true)
  ∧ (∀ c d : String, c ∉ preferredCats → d ∉ preferredCats →
        (catLe c d = true ↔ c ≤ d)) := by
  refine ⟨by decide, ?_, ?_, by decide, ?_, ?_⟩
  · intro reqs
    have i1 : IsTotal String fun a b => catLe a b = true := ⟨catLe_total⟩
    have i2 : IsTrans String fun a b => catLe a b = true := ⟨catLe_trans⟩
    simp only [orderedCategories, sortCats]
    exact List.sorted_insertionSort _ _
  · intro ds
    exact dedupFold_nodup ds [] List.nodup_nil
  · intro c hc
    rw [catLe_iff, catIndex_of_not_mem c hc]
    left
    have h1 : catIndex "Non-Functional" = 1 := by decide
    rw [h1]
    norm_num
  · intro c d hc hd
    rw [catLe_iff, catIndex_of_not_mem c hc, catIndex_of_not_mem d hd]
    simp

/-- Witness for C6: the lexicographic tail order applied at two concrete
non-preferred categories. -/
theorem c6_format_grouping_witness :
    ("User Story" ∉ preferredCats)
  ∧ ("Zebra" ∉ preferredCats)
  ∧ (catLe "User Story" "Zebra" = true ↔ "User Story" ≤ "Zebra") :=
  ⟨by decide, by decide,
    c6_format_grouping.2.2.2.2.2 "User Story" "Zebra" (by decide) (by decide)⟩

/-- C7 (amended): question_maker solicits a synchronous human answer only
for the questions in questions[:1], a cap of at most one question, and
appends exactly one generated entry named question_maker whose payload is
the accumulated pairs. -/
theorem c7_question_cap :
    ∀ (gen : RequirementsList → List String) (ask : String → String)
      (state : RAGState) (m : Msg) (r : RequirementsList),
      state.messages.getLast? = some m →
      m.content = Content.structuredList r →
      question_maker gen ask state =
        Except.ok { messages := [{ origin := Origin.ai
                                   name := some "question_maker"
                                   content := Content.qnaDump
                                     (((gen r).take 1).map fun q => (q, ask q)) }]
                    documents := [] } := by
  intro gen ask state m r hlast hc
  simp [question_maker, hlast, hc]

/-- Counterexample for C7: with two generated clarifying questions the
stage accumulates only one answered pair, not one pair per question up
to a cap of three. -/
theorem c7_cap_counterexample :
    question_maker (fun _ => ["q1", "q2"]) (fun q => "ans " ++ q)
        { messages := [{ origin := Origin.ai
                         name := some "requirements_agent"
                         content := Content.structuredList { requirements := [] } }]
          documents := [] }
      = Except.ok { messages := [{ origin := Origin.ai
                                   name := some "question_maker"
                                   content := Content.qnaDump [("q1", "ans q1")] }]
                    documents := [] }
  ∧ [("q1", "ans q1")].length ≠ min ["q1", "q2"].length 3 :=
  ⟨rfl, by decide⟩

/-- Witness for C7: the cap applied at a concrete state with three
generated questions, producing the single leading pair. -/
theorem c7_question_cap_witness :
    question_maker (fun _ => ["qa", "qb", "qc"]) (fun _ => "ans")
        { messages := [{ origin := Origin.ai
                         name := none
                         content := Content.structuredList { requirements := [] } }]
          documents := [] }
      = Except.ok { messages := [{ origin := Origin.ai
                                   name := some "question_maker"
                                   content := Content.qnaDump [("qa", "ans")] }]
                    documents := [] } :=
  c7_question_cap (fun _ => ["qa", "qb", "qc"]) (fun _ => "ans") _
    { origin := Origin.ai, name := none, content := Content.structuredList { requirements := [] } }
    { requirements := [] } rfl rfl
